import Mathlib

/-!
Verification of the QGAN script (`QGAN.py`): a quantum generative
adversarial network built from a qubit discriminator circuit and a
photonic (Gaussian) generator circuit.  The source fixes
`num_qubits = 2`, hence data vectors have length `n = 2^2 = 4`.

Floating-point arithmetic in the source is modelled with exact real
arithmetic (ℝ); a separate model tracks the division-by-zero / NaN
behaviour of `normalize` on degenerate input.
-/

open scoped BigOperators

namespace QGAN

/-! ## Normalization (`normalize`, QGAN.py lines 75-77)

`normalize(values)` computes `mean = np.sqrt(np.sum(values ** 2))`
and returns `values / mean`, elementwise. -/

/-- `np.sum(values ** 2)`: sum of squared entries of a length-`k` vector. -/
def normSq {k : ℕ} (v : Fin k → ℝ) : ℝ := ∑ i, v i ^ 2

/-- `normalize(values)`: divide each entry by the Euclidean norm
`np.sqrt(np.sum(values ** 2))` (idealized real-arithmetic semantics). -/
noncomputable def normalize {k : ℕ} (v : Fin k → ℝ) : Fin k → ℝ :=
  fun i => v i / Real.sqrt (normSq v)

theorem normSq_nonneg {k : ℕ} (v : Fin k → ℝ) : 0 ≤ normSq v :=
  Finset.sum_nonneg fun i _ => sq_nonneg (v i)

theorem normSq_normalize {k : ℕ} (v : Fin k → ℝ) (h : normSq v ≠ 0) :
    normSq (normalize v) = 1 := by
  have hpos : 0 < normSq v := lt_of_le_of_ne (normSq_nonneg v) (Ne.symm h)
  have hsq : Real.sqrt (normSq v) ^ 2 = normSq v := Real.sq_sqrt (le_of_lt hpos)
  unfold normSq normalize
  have : ∀ i : Fin k, (v i / Real.sqrt (normSq v)) ^ 2 = v i ^ 2 / normSq v := by
    intro i
    rw [div_pow, hsq]
  rw [Finset.sum_congr rfl fun i _ => this i, ← Finset.sum_div]
  exact div_self h

theorem normalize_self_of_normSq_one {k : ℕ} (v : Fin k → ℝ) (h : normSq v = 1) :
    normalize v = v := by
  funext i
  simp [normalize, h]

/-! ## NaN model of `normalize` for degenerate input

numpy division by zero does not raise: `0.0 / 0.0` evaluates to NaN
(with only a runtime warning).  `none` stands for a non-finite float
(NaN).  The caller-side assertion
`assert np.abs(1-np.sum(w ** 2)) <= 0.0000001` (line 81) compares
against NaN, and every comparison with NaN is false. -/

/-- Float division `x / y`: `none` (NaN/non-finite) when the divisor is zero. -/
noncomputable def fdiv (x y : ℝ) : Option ℝ :=
  if y = 0 then none else some (x / y)

/-- `np.sum(values ** 2)` over a list (loader-side representation). -/
def sumSqList (v : List ℝ) : ℝ := (v.map fun x => x ^ 2).sum

/-- `normalize(values)` in the NaN-tracking float model: each entry is
divided by `np.sqrt(np.sum(values ** 2))`; a zero norm yields NaN entries. -/
noncomputable def normalizeF (v : List ℝ) : List (Option ℝ) :=
  v.map fun x => fdiv x (Real.sqrt (sumSqList v))

/-- Sum of squares of a float vector, propagating NaN. -/
def sumSqF : List (Option ℝ) → Option ℝ
  | [] => some 0
  | none :: _ => none
  | some a :: xs => Option.map (fun s => a ^ 2 + s) (sumSqF xs)

/-- The caller-side consistency assertion
`np.abs(1 - np.sum(w ** 2)) <= 0.0000001`; false when the sum is NaN
(IEEE comparisons with NaN are false). -/
def ampCheckF (v : List (Option ℝ)) : Prop :=
  match sumSqF v with
  | none => False
  | some s => |1 - s| ≤ 0.0000001

/-! ## Data loader (QGAN.py lines 49-58)

`data` is a whitespace-delimited table whose rows are
`(timestamp, x, y, z)`.  The loop takes `data[:,1:4]` (dropping the
timestamp), reshapes row-major to a flat sequence, and writes its
first `min(n, len)` values into a row of `np.zeros((m, n))`. -/

/-- `data[:,1:4].reshape(len*3)`: drop the timestamp column and flatten
the velocity columns in row-major order. -/
def flattenRows {α : Type} (rows : List (α × α × α × α)) : List α :=
  rows.flatMap fun r => [r.2.1, r.2.2.1, r.2.2.2]

/-- `real_values[i][0:min(n,len)] = selected_data[0:min(n,len)]` applied
to a fresh `np.zeros` row of length `k`: the first `min(k, len)` flat
values followed by zeros. -/
def loadVector {α : Type} [Zero α] (k : ℕ) (rows : List (α × α × α × α)) : List α :=
  (flattenRows rows).take k ++ List.replicate (k - (flattenRows rows).length) (0 : α)

/-! ## Discriminator circuit (`real_disc_circuit`, QGAN.py lines 116-124)

`num_qubits = 2`, so the state of the `default.qubit` device is a
function of the two wire values; the amplitude of basis state
`|b0 b1⟩` (wire 0 is the most significant bit) is indexed by the pair
of booleans.  The simulation is exact state-vector evolution. -/

/-- State of the 2-qubit simulator: amplitude of `|b0 b1⟩`. -/
def QState : Type := Bool → Bool → ℂ

/-- Index of basis state `|b0 b1⟩` into the length-4 amplitude vector. -/
def finIdx (b0 b1 : Bool) : Fin 4 :=
  ⟨2 * b0.toNat + b1.toNat, by cases b0 <;> cases b1 <;> decide⟩

/-- `qml.QubitStateVector(real_values, wires=range(2))`: inject the real
amplitude vector directly as the circuit state. -/
noncomputable def encode (v : Fin 4 → ℝ) : QState :=
  fun b0 b1 => ((v (finIdx b0 b1) : ℝ) : ℂ)

/-- The matrix of `qml.Rot(phi, theta, omega)` = RZ(omega) RY(theta) RZ(phi). -/
noncomputable def rotMat (phi theta omega : ℝ) : Bool → Bool → ℂ :=
  fun r c =>
    match r, c with
    | false, false => Complex.exp (-((phi + omega) / 2) * Complex.I) * Real.cos (theta / 2)
    | false, true => -(Complex.exp (((phi - omega) / 2) * Complex.I) * Real.sin (theta / 2))
    | true, false => Complex.exp (-((phi - omega) / 2) * Complex.I) * Real.sin (theta / 2)
    | true, true => Complex.exp (((phi + omega) / 2) * Complex.I) * Real.cos (theta / 2)

/-- Apply a single-qubit gate on wire 0. -/
def applyW0 (U : Bool → Bool → ℂ) (psi : QState) : QState :=
  fun b0 b1 => U b0 false * psi false b1 + U b0 true * psi true b1

/-- Apply a single-qubit gate on wire 1. -/
def applyW1 (U : Bool → Bool → ℂ) (psi : QState) : QState :=
  fun b0 b1 => U b1 false * psi b0 false + U b1 true * psi b0 true

/-- `qml.CNOT(wires=[0,1])`: control wire 0, target wire 1. -/
def cnot01 (psi : QState) : QState := fun b0 b1 => psi b0 (xor b1 b0)

/-- `qml.CNOT(wires=[1,0])`: control wire 1, target wire 0. -/
def cnot10 (psi : QState) : QState := fun b0 b1 => psi (xor b0 b1) b1

/-- One elementary circuit layer (`layer(num_wires, W)`, lines 102-106):
`Rot(W[i,0], W[i,1], W[i,2])` on each wire `i`, then the entangling ring
`CNOT[0,1]`, `CNOT[1,0]`. -/
noncomputable def layer (W : Fin 2 → Fin 3 → ℝ) (psi : QState) : QState :=
  cnot10 (cnot01 (applyW1 (rotMat (W 1 0) (W 1 1) (W 1 2))
    (applyW0 (rotMat (W 0 0) (W 0 1) (W 0 2)) psi)))

/-- `qml.expval.PauliZ(0)`: expectation of Pauli-Z on wire 0,
`sum over basis states of (+1 or -1) times the squared amplitude`. -/
noncomputable def expvalZ0 (psi : QState) : ℝ :=
  ∑ b0 : Bool, ∑ b1 : Bool, (cond b0 (-1) 1) * Complex.normSq (psi b0 b1)

/-- `real_disc_circuit(real_values, weights)`: amplitude-encode the
input, apply one `layer` per weight matrix, measure `PauliZ(0)`. -/
noncomputable def real_disc_circuit (v : Fin 4 → ℝ) (weights : List (Fin 2 → Fin 3 → ℝ)) : ℝ :=
  expvalZ0 (weights.foldl (fun st W => layer W st) (encode v))

/-! ## Cost functions (QGAN.py lines 184-241)

The Python functions guard their result with `assert` statements; an
assertion failure aborts the process, so the functions are modelled as
`Option`-valued: `none` is an assertion failure, `some p` a normal
return of `p`. -/

/-- `prob_real_true(real_values, disc_weights)`: measure
`r = real_disc_circuit(...)`, assert `r >= -1 and r <= 1`, set
`p = (r+1)/2`, assert `p >= 0 and r <= 1` (the source checks `r`, not
`p`, in the second conjunct), return `p`. -/
noncomputable def prob_real_true (v : Fin 4 → ℝ) (disc_weights : List (Fin 2 → Fin 3 → ℝ)) :
    Option ℝ :=
  let r := real_disc_circuit v disc_weights
  if -1 ≤ r ∧ r ≤ 1 then
    let p := (r + 1) / 2
    if 0 ≤ p ∧ r ≤ 1 then some p else none
  else none

/-- `prob_fake_true(fake_values, disc_weights)`: identical body to
`prob_real_true`, applied to fake values. -/
noncomputable def prob_fake_true (v : Fin 4 → ℝ) (disc_weights : List (Fin 2 → Fin 3 → ℝ)) :
    Option ℝ :=
  let r := real_disc_circuit v disc_weights
  if -1 ≤ r ∧ r ≤ 1 then
    let p := (r + 1) / 2
    if 0 ≤ p ∧ r ≤ 1 then some p else none
  else none

/-- `disc_cost(fake_values, real_values, disc_weights)
    = prob_fake_true(fake_values, disc_weights)
      - prob_real_true(real_values, disc_weights)`;
aborts (`none`) if either probability aborts. -/
noncomputable def disc_cost (fake_values real_values : Fin 4 → ℝ)
    (disc_weights : List (Fin 2 → Fin 3 → ℝ)) : Option ℝ :=
  match prob_fake_true fake_values disc_weights,
      prob_real_true real_values disc_weights with
  | some pf, some pr => some (pf - pr)
  | _, _ => none

/-- `gen_cost(params, disc_weights)`: run the generator
(`mean_photon_gaussian`, an external black-box Gaussian simulation,
passed here as the function `mpg`), normalize its output, assert
`np.abs(1-np.sum(norm_fake_values ** 2)) <= 0.0000001`, and return
`- prob_fake_true(norm_fake_values, disc_weights)`. -/
noncomputable def gen_cost (mpg : (Fin 4 → Fin 3 → ℝ) → (Fin 4 → ℝ))
    (params : Fin 4 → Fin 3 → ℝ) (disc_weights : List (Fin 2 → Fin 3 → ℝ)) : Option ℝ :=
  let fake_values := mpg params
  let norm_fake_values := normalize fake_values
  if |1 - normSq norm_fake_values| ≤ 0.0000001 then
    match prob_fake_true norm_fake_values disc_weights with
    | some p => some (-p)
    | none => none
  else none

/-! ## Discriminator optimization loop (QGAN.py lines 292-301)

`for i in range(steps): j = random; disc_weights = opt.step(..., disc_weights)`.
The optimizer update (`GradientDescentOptimizer.step`, with its random
sample index `j` and autodifferentiated gradient) is the external
black-box primitive; it is abstracted as `stepFn i`. -/

/-- Discriminator weight tensor shape `(num_layers, num_qubits, 3)` = `(2, 2, 3)`. -/
def DW : Type := Fin 2 → Fin 2 → Fin 3 → ℝ

/-- The discriminator training loop: fold `stepFn` over `range steps`,
where `stepFn i` models
`opt.step(lambda v: disc_cost(fake_values, real_values[j_i,:], v), ·)`
at iteration `i`. -/
def discTraining (stepFn : ℕ → DW → DW) (steps : ℕ) (w : DW) : DW :=
  (List.range steps).foldl (fun wcur i => stepFn i wcur) w

/-! ## Evaluation helpers -/

/-- With the basis-state input `[1,0,0,0]` (`|00⟩`) and an empty layer
list, the discriminator circuit measures `PauliZ(0) = 1`. -/
theorem real_disc_circuit_nil_e0 : real_disc_circuit ![(1 : ℝ), 0, 0, 0] [] = 1 := by
  simp [real_disc_circuit, expvalZ0, encode, finIdx, Fintype.sum_bool]

theorem prob_real_true_eq_of_bounds (v : Fin 4 → ℝ) (w : List (Fin 2 → Fin 3 → ℝ))
    (h1 : -1 ≤ real_disc_circuit v w) (h2 : real_disc_circuit v w ≤ 1) :
    prob_real_true v w = some ((real_disc_circuit v w + 1) / 2) := by
  have hp0 : 0 ≤ (real_disc_circuit v w + 1) / 2 := by linarith
  simp only [prob_real_true]
  rw [if_pos ⟨h1, h2⟩, if_pos ⟨hp0, h2⟩]

theorem prob_fake_true_eq_of_bounds (v : Fin 4 → ℝ) (w : List (Fin 2 → Fin 3 → ℝ))
    (h1 : -1 ≤ real_disc_circuit v w) (h2 : real_disc_circuit v w ≤ 1) :
    prob_fake_true v w = some ((real_disc_circuit v w + 1) / 2) := by
  have hp0 : 0 ≤ (real_disc_circuit v w + 1) / 2 := by linarith
  simp only [prob_fake_true]
  rw [if_pos ⟨h1, h2⟩, if_pos ⟨hp0, h2⟩]

theorem prob_real_true_e0 : prob_real_true ![(1 : ℝ), 0, 0, 0] [] = some 1 := by
  rw [prob_real_true_eq_of_bounds _ _ (by rw [real_disc_circuit_nil_e0]; norm_num)
    (by rw [real_disc_circuit_nil_e0]), real_disc_circuit_nil_e0]
  norm_num

theorem prob_fake_true_e0 : prob_fake_true ![(1 : ℝ), 0, 0, 0] [] = some 1 := by
  rw [prob_fake_true_eq_of_bounds _ _ (by rw [real_disc_circuit_nil_e0]; norm_num)
    (by rw [real_disc_circuit_nil_e0]), real_disc_circuit_nil_e0]
  norm_num

theorem normalizeF_zero4 : normalizeF [0, 0, 0, 0] = [none, none, none, none] := by
  simp [normalizeF, fdiv, sumSqList]

theorem normSq_e34 : normSq ![(3 : ℝ), 4] ≠ 0 := by
  norm_num [normSq, Fin.sum_univ_two]

theorem normSq_e0 : normSq ![(1 : ℝ), 0, 0, 0] ≠ 0 := by
  norm_num [normSq, Fin.sum_univ_four]

/-! ## Claims -/

/-- C1: whenever the discriminator expectation `r` lies in `[-1, 1]`,
`prob_real_true` and `prob_fake_true` both return the probability
`(r + 1) / 2`, which lies in `[0, 1]`; at the boundary values
`r = -1, 0, +1` the probability is `0, 1/2, 1`. -/
theorem prob_true_affine_in_unit_interval (v : Fin 4 → ℝ)
    (w : List (Fin 2 → Fin 3 → ℝ))
    (h1 : -1 ≤ real_disc_circuit v w) (h2 : real_disc_circuit v w ≤ 1) :
    prob_real_true v w = some ((real_disc_circuit v w + 1) / 2) ∧
      prob_fake_true v w = some ((real_disc_circuit v w + 1) / 2) ∧
      0 ≤ (real_disc_circuit v w + 1) / 2 ∧
      (real_disc_circuit v w + 1) / 2 ≤ 1 ∧
      (real_disc_circuit v w = -1 → prob_real_true v w = some 0) ∧
      (real_disc_circuit v w = 0 → prob_real_true v w = some (1 / 2)) ∧
      (real_disc_circuit v w = 1 → prob_real_true v w = some 1) := by
  have hreal := prob_real_true_eq_of_bounds v w h1 h2
  refine ⟨hreal, prob_fake_true_eq_of_bounds v w h1 h2, by linarith, by linarith,
    fun hb => ?_, fun hb => ?_, fun hb => ?_⟩ <;>
    rw [hreal, hb] <;> norm_num

/-- Witness for C1 at the basis state `[1,0,0,0]` with no layers, where
the expectation is `1`. -/
theorem prob_true_affine_in_unit_interval_witness :
    prob_real_true ![(1 : ℝ), 0, 0, 0] [] =
        some ((real_disc_circuit ![(1 : ℝ), 0, 0, 0] [] + 1) / 2) ∧
      0 ≤ (real_disc_circuit ![(1 : ℝ), 0, 0, 0] [] + 1) / 2 ∧
      (real_disc_circuit ![(1 : ℝ), 0, 0, 0] [] + 1) / 2 ≤ 1 := by
  have h1 : -1 ≤ real_disc_circuit ![(1 : ℝ), 0, 0, 0] [] := by
    rw [real_disc_circuit_nil_e0]; norm_num
  have h2 : real_disc_circuit ![(1 : ℝ), 0, 0, 0] [] ≤ 1 := by
    rw [real_disc_circuit_nil_e0]
  obtain ⟨a, _, c, d, _⟩ := prob_true_affine_in_unit_interval ![(1 : ℝ), 0, 0, 0] [] h1 h2
  exact ⟨a, c, d⟩

/-- C2: normalizing any vector of non-zero Euclidean norm yields a unit
vector: the sum of squared entries differs from 1 by at most `1e-7`
(in exact real arithmetic it is exactly 1). -/
theorem normalize_unit_normSq {k : ℕ} (v : Fin k → ℝ) (h : normSq v ≠ 0) :
    |normSq (normalize v) - 1| ≤ 0.0000001 := by
  rw [normSq_normalize v h]
  norm_num

/-- Witness for C2 at the vector `[3, 4]` (norm 5). -/
theorem normalize_unit_normSq_witness :
    normSq ![(3 : ℝ), 4] ≠ 0 ∧ |normSq (normalize ![(3 : ℝ), 4]) - 1| ≤ 0.0000001 :=
  ⟨normSq_e34, normalize_unit_normSq _ normSq_e34⟩

/-- C3 counterexample: `normalize` applied to the all-zero vector does
not raise any error: it returns the all-NaN vector (each entry is the
float division `0 / sqrt 0 = 0 / 0`, i.e. NaN, modelled as `none`). -/
theorem normalize_zero_returns_nan :
    normalizeF [0, 0, 0, 0] = [none, none, none, none] :=
  normalizeF_zero4

/-- C3 amended: on an all-zero input, `normalize` itself silently
returns an all-NaN vector; the fatality comes from the caller, whose
amplitude-consistency assertion
`np.abs(1-np.sum(w ** 2)) <= 0.0000001` is false on the NaN result
(every IEEE comparison with NaN is false), so the pipeline aborts with
an `AssertionError` rather than proceeding with NaN data. -/
theorem normalize_zero_fails_amp_check :
    normalizeF [0, 0, 0, 0] = [none, none, none, none] ∧
      ¬ ampCheckF (normalizeF [0, 0, 0, 0]) := by
  refine ⟨normalizeF_zero4, ?_⟩
  rw [normalizeF_zero4]
  simp [ampCheckF, sumSqF]

/-- C4: `disc_cost(fake, real, w)` returns the difference
`prob_fake_true(fake, w) - prob_real_true(real, w)` whenever both
probability computations return normally. -/
theorem disc_cost_eq_sub (fake_values real_values : Fin 4 → ℝ)
    (w : List (Fin 2 → Fin 3 → ℝ)) (pf pr : ℝ)
    (hf : prob_fake_true fake_values w = some pf)
    (hr : prob_real_true real_values w = some pr) :
    disc_cost fake_values real_values w = some (pf - pr) := by
  simp only [disc_cost, hf, hr]

/-- Witness for C4 at identical basis-state inputs with no layers:
both probabilities are `1`, so the cost is `0`. -/
theorem disc_cost_eq_sub_witness :
    disc_cost ![(1 : ℝ), 0, 0, 0] ![(1 : ℝ), 0, 0, 0] [] = some (1 - 1) :=
  disc_cost_eq_sub _ _ _ _ _ prob_fake_true_e0 prob_real_true_e0

/-- C5: if the generator output `mpg params` has non-zero norm, the
internal unit-norm assertion passes and `gen_cost` returns the negation
of the discriminator probability of the normalized generator output. -/
theorem gen_cost_eq_neg_prob (mpg : (Fin 4 → Fin 3 → ℝ) → (Fin 4 → ℝ))
    (params : Fin 4 → Fin 3 → ℝ) (w : List (Fin 2 → Fin 3 → ℝ))
    (h : normSq (mpg params) ≠ 0) :
    gen_cost mpg params w =
      Option.map (fun p => -p) (prob_fake_true (normalize (mpg params)) w) := by
  simp only [gen_cost]
  rw [normSq_normalize _ h, if_pos (by norm_num)]
  cases prob_fake_true (normalize (mpg params)) w <;> rfl

/-- Witness for C5 with a constant generator emitting the basis state. -/
theorem gen_cost_eq_neg_prob_witness :
    gen_cost (fun _ => ![(1 : ℝ), 0, 0, 0]) (fun _ _ => 0) [] =
      Option.map (fun p => -p)
        (prob_fake_true (normalize ![(1 : ℝ), 0, 0, 0]) []) :=
  gen_cost_eq_neg_prob _ _ _ normSq_e0

/-- C6: re-normalizing an already-normalized vector is idempotent: for
any vector of non-zero norm, `normalize (normalize v)` equals
`normalize v` exactly, so each entry differs by `0 < 1e-7`. -/
theorem normalize_idempotent {k : ℕ} (v : Fin k → ℝ) (h : normSq v ≠ 0) :
    normalize (normalize v) = normalize v ∧
      ∀ i, |normalize (normalize v) i - normalize v i| < 0.0000001 := by
  have heq : normalize (normalize v) = normalize v :=
    normalize_self_of_normSq_one _ (normSq_normalize v h)
  refine ⟨heq, fun i => ?_⟩
  rw [heq]
  norm_num

/-- Witness for C6 at the vector `[3, 4]`. -/
theorem normalize_idempotent_witness :
    normalize (normalize ![(3 : ℝ), 4]) = normalize ![(3 : ℝ), 4] ∧
      ∀ i, |normalize (normalize ![(3 : ℝ), 4]) i - normalize ![(3 : ℝ), 4] i| < 0.0000001 :=
  normalize_idempotent _ normSq_e34

/-- C7: the loaded vector has length `n`; entry `i < n` is the `i`-th
element of the timestamp-stripped row-major flattening when one exists
(truncation to the first `min(n, available)` values) and `0` otherwise
(zero-padding). -/
theorem loadVector_spec {α : Type} [Zero α] (k : ℕ) (rows : List (α × α × α × α))
    (i : ℕ) (hi : i < k) :
    (loadVector k rows).length = k ∧
      (loadVector k rows).getD i 0 =
        if i < (flattenRows rows).length then (flattenRows rows).getD i 0 else 0 := by
  constructor
  · simp only [loadVector, List.length_append, List.length_take, List.length_replicate]
    omega
  · by_cases h : i < (flattenRows rows).length
    · rw [if_pos h]
      have htk : i < ((flattenRows rows).take k).length := by
        simp only [List.length_take]
        omega
      rw [loadVector, List.getD_append _ _ _ _ htk,
        List.getD_eq_getElem _ _ htk, List.getD_eq_getElem _ _ h]
      simp
    · rw [if_neg h]
      push_neg at h
      rw [loadVector, List.getD_append_right]
      · rcases Nat.lt_or_ge (i - ((flattenRows rows).take k).length)
          (k - (flattenRows rows).length) with hc | hc
        · rw [List.getD_eq_getElem]
          · simp
          · simpa using hc
        · apply List.getD_eq_default
          simpa using hc
      · simp only [List.length_take]
        omega

/-- Witness for C7: a single row `(10, 1, 2, 3)` loaded into length 4:
entry 3 lies past the three available values, hence is zero. -/
theorem loadVector_spec_witness :
    (loadVector 4 [((10 : ℚ), 1, 2, 3)]).length = 4 ∧
      (loadVector 4 [((10 : ℚ), 1, 2, 3)]).getD 3 0 =
        if 3 < (flattenRows [((10 : ℚ), 1, 2, 3)]).length then
          (flattenRows [((10 : ℚ), 1, 2, 3)]).getD 3 0
        else 0 :=
  loadVector_spec 4 [((10 : ℚ), 1, 2, 3)] 3 (by norm_num)

/-- C8: the discriminator optimization loop run for `0` steps returns
the weight tensor unchanged, for any optimizer update function. -/
theorem discTraining_zero_steps (stepFn : ℕ → DW → DW) (w : DW) :
    discTraining stepFn 0 w = w := rfl

/-- C9: the discriminator circuit evaluator is deterministic: two calls
on equal amplitude vectors and equal weight tensors produce equal
outputs (exact state-vector simulation, no sampling). -/
theorem real_disc_circuit_deterministic (v1 v2 : Fin 4 → ℝ)
    (w1 w2 : List (Fin 2 → Fin 3 → ℝ)) (hv : v1 = v2) (hw : w1 = w2) :
    real_disc_circuit v1 w1 = real_disc_circuit v2 w2 := by
  rw [hv, hw]

/-- Witness for C9: two identical calls at a concrete input. -/
theorem real_disc_circuit_deterministic_witness :
    real_disc_circuit ![(1 : ℝ), 0, 0, 0] [] = real_disc_circuit ![(1 : ℝ), 0, 0, 0] [] :=
  real_disc_circuit_deterministic _ _ _ _ rfl rfl

/-- C10: `prob_real_true` and `prob_fake_true` have identical bodies and
compute the same function of (vector, weights). -/
theorem prob_real_true_eq_prob_fake_true (v : Fin 4 → ℝ)
    (w : List (Fin 2 → Fin 3 → ℝ)) :
    prob_real_true v w = prob_fake_true v w := rfl

end QGAN
